import Mathlib

/-!
Shallow embedding of the bulk-harvest engine of `bnmpy` (`src/bnmpy/scraper.py`,
class `BNMPScraper`) and proofs about the claims of its specification.

Modelling conventions:
* JSON result pages are `PageData` records (`content`, `totalElements`,
  `totalPages`); search-result records keep only the two fields the engine
  reads (`id`, `idTipoPeca`), both optional as in the dynamic JSON.
* The on-disk JSON store is an association list from structured page keys
  to page data; `save_json` opens the file with mode "w" (overwrite), which
  cons + first-match lookup models.  The page-file name
  `{prefix}_page_{p}_size_{s}.json` determines and is determined by the
  quadruple (uf, municipality, page, size), which is the `PageKey`.
* The HTTP world is a pure function from requests to responses; every network
  request issued is recorded as an `Event`, so "no network call" is
  `events = []`.  A Python exception that propagates is an `err` field of
  type `Option PyErr`; `raise_for_status` raises exactly for status ≥ 400.
* `time.sleep`, logging, metadata files (a disjoint file namespace) and the
  display names carried around for printing are not observable by any claim
  and are omitted.  Thread-pool execution is serialised in dispatch order;
  the reassembly sort of the parallel page mode is modelled explicitly.
-/

namespace Bnmpy

/-- One search-result record; the engine reads exactly the `id` and
`idTipoPeca` fields (`result.get("id")`, `result.get("idTipoPeca")`),
each of which may be absent in the JSON. -/
structure Record where
  id : Option Nat
  idTipoPeca : Option Nat
deriving DecidableEq, Repr

/-- One JSON result page as consumed by `download_filter_results`
(`content`, `totalElements`, `totalPages`). -/
structure PageData where
  content : List Record
  totalElements : Nat
  totalPages : Nat
deriving DecidableEq, Repr

/-- A `pesquisa_pecas_filter` request: state id, optional municipality id,
0-based page index and requested page size (the remaining kwargs are
constants in the source). -/
structure Request where
  uf : Nat
  municipio : Option Nat
  page : Nat
  size : Nat
deriving DecidableEq, Repr

/-- An HTTP response to a search request: status code and JSON body. -/
structure Response where
  status : Nat
  body : PageData
deriving DecidableEq, Repr

/-- The search API modelled as a pure function. -/
def Server := Request → Response

/-- The idempotency key of a persisted page file
`{prefix}_page_{page}_size_{size}.json` where the prefix is
`uf_{uf}` or `uf_{uf}_municipio_{municipio}`. -/
structure PageKey where
  uf : Nat
  municipio : Option Nat
  page : Nat
  size : Nat
deriving DecidableEq, Repr

/-- The on-disk JSON page store. -/
abbrev Store := List (PageKey × PageData)

/-- First-match lookup in the store (file contents under a name). -/
def storeFind : Store → PageKey → Option PageData
  | [], _ => none
  | (k, v) :: rest, key => if k = key then some v else storeFind rest key

/-- `save_json`: writing the file (mode "w" overwrites). -/
def storeSave (s : Store) (k : PageKey) (v : PageData) : Store := (k, v) :: s

/-- A Python exception observable by the engine. -/
inductive PyErr where
  | status (code : Nat)
  | zeroDivision
deriving DecidableEq, Repr

/-- An observable side effect: a network request. `pageReq` is a search
call, `muniList` a `get_municipios_por_uf` call, `pdfReq` a PDF download
call (tagged with the state id passed for context). -/
inductive Event where
  | pageReq (req : Request)
  | muniList (uf : Nat)
  | pdfReq (uf : Option Nat) (certidao : Nat) (tipo : Nat)
deriving DecidableEq, Repr

/-- Scraper configuration (`__init__`): `page_size`,
`max_results_per_combination`, `max_workers`.  The delay and directories
have no observable effect in the model. -/
structure Config where
  page_size : Nat
  max_results_per_combination : Nat
  max_workers : Nat
deriving DecidableEq, Repr

/-- Result of `_download_single_page`: the `(page, page_data, error)`
triple, together with the store after the call and the network requests
issued during it. -/
structure FetchOut where
  page : Nat
  data : Option PageData
  err : Option PyErr
  store : Store
  events : List Event
deriving DecidableEq, Repr

/-- `BNMPScraper._download_single_page`.  `effSize` is the
`effective_page_size` argument (the size this call requests).  The two
file names checked are `size_{effSize}` and `size_{page_size}`; on a miss
the request is issued; 200 persists under the `size_{effSize}` key; 400
with `effSize > 10` retries once with size 10 and persists under the
`size_10` key on success; any other outcome is an error carrying the
status code. -/
def downloadSinglePage (cfg : Config) (srv : Server) (store : Store)
    (uf : Nat) (mun : Option Nat) (page : Nat) (effSize : Nat) : FetchOut :=
  let fname : PageKey := ⟨uf, mun, page, effSize⟩
  let fnameOrig : PageKey := ⟨uf, mun, page, cfg.page_size⟩
  match storeFind store fname with
  | some d => ⟨page, some d, none, store, []⟩
  | none =>
    match storeFind store fnameOrig with
    | some d => ⟨page, some d, none, store, []⟩
    | none =>
      let req : Request := ⟨uf, mun, page, effSize⟩
      let resp := srv req
      if resp.status = 200 then
        ⟨page, some resp.body, none, storeSave store fname resp.body,
          [Event.pageReq req]⟩
      else if resp.status = 400 ∧ 10 < effSize then
        let req2 : Request := ⟨uf, mun, page, 10⟩
        let resp2 := srv req2
        if resp2.status = 200 then
          ⟨page, some resp2.body, none,
            storeSave store ⟨uf, mun, page, 10⟩ resp2.body,
            [Event.pageReq req, Event.pageReq req2]⟩
        else
          ⟨page, none, some (PyErr.status resp2.status), store,
            [Event.pageReq req, Event.pageReq req2]⟩
      else
        ⟨page, none, some (PyErr.status resp.status), store,
          [Event.pageReq req]⟩

/-- Result of `download_filter_results`: accumulated results, final store,
network requests issued, and the Python exception that escaped it
(`ZeroDivisionError` from the page-cap division), if any. -/
structure DfrOut where
  results : List Record
  store : Store
  events : List Event
  err : Option PyErr
deriving DecidableEq, Repr

/-- The sequential page loop of `download_filter_results`: for each page,
stop if the accumulated results already reach the maximum, fetch the page
with the settled size, break on error, extend on data. -/
def seqPages (cfg : Config) (srv : Server) (uf : Nat) (mun : Option Nat)
    (eff : Nat) : List Nat → Store → List Record → List Event → DfrOut
  | [], store, acc, evs => ⟨acc, store, evs, none⟩
  | p :: ps, store, acc, evs =>
    if cfg.max_results_per_combination ≤ acc.length then ⟨acc, store, evs, none⟩
    else
      let r := downloadSinglePage cfg srv store uf mun p eff
      match r.err with
      | some _ => ⟨acc, r.store, evs ++ r.events, none⟩
      | none =>
        match r.data with
        | some d =>
          seqPages cfg srv uf mun eff ps r.store (acc ++ d.content) (evs ++ r.events)
        | none => seqPages cfg srv uf mun eff ps r.store acc (evs ++ r.events)

/-- The parallel page loop of `download_filter_results`, serialised in
dispatch (= page) order: every page is attempted, successes are collected
as (page, data) pairs, failures are collected independently and cancel
nothing. -/
def parPages (cfg : Config) (srv : Server) (uf : Nat) (mun : Option Nat)
    (eff : Nat) : List Nat → Store → List (Nat × PageData) → List Event →
    (List (Nat × PageData) × Store × List Event)
  | [], store, succ, evs => (succ, store, evs)
  | p :: ps, store, succ, evs =>
    let r := downloadSinglePage cfg srv store uf mun p eff
    match r.err with
    | some _ => parPages cfg srv uf mun eff ps r.store succ (evs ++ r.events)
    | none =>
      match r.data with
      | some d =>
        parPages cfg srv uf mun eff ps r.store (succ ++ [(p, d)]) (evs ++ r.events)
      | none => parPages cfg srv uf mun eff ps r.store succ (evs ++ r.events)

/-- Insertion step for the page-order reassembly sort. -/
def insertByPage (x : Nat × PageData) : List (Nat × PageData) → List (Nat × PageData)
  | [] => [x]
  | y :: ys => if x.1 ≤ y.1 then x :: y :: ys else y :: insertByPage x ys

/-- `for page_num in sorted(page_results.keys())`: reassemble collected
pages in ascending page order. -/
def sortByPage : List (Nat × PageData) → List (Nat × PageData)
  | [] => []
  | x :: xs => insertByPage x (sortByPage xs)

/-- The body of `download_filter_results` from the point where the page-0
fetch `r0` has returned: on its failure the scope yields `[]`.  The
effective page size is the length of page 0's content; if `totalElements`
reaches the maximum, the page count is capped by an integer division that
raises `ZeroDivisionError` when page 0's content is empty.  Pages
`1..total_pages-1` are then fetched in the parallel mode (when
`max_workers > 1` and more than one page remains) or sequentially. -/
def dfrAfterPage0 (cfg : Config) (srv : Server) (uf : Nat) (mun : Option Nat)
    (r0 : FetchOut) : DfrOut :=
  match r0.err with
  | some _ => ⟨[], r0.store, r0.events, none⟩
  | none =>
    match r0.data with
    | none => ⟨[], r0.store, r0.events, none⟩
    | some d0 =>
      let eff := d0.content.length
      if cfg.max_results_per_combination ≤ d0.totalElements ∧ eff = 0 then
        ⟨[], r0.store, r0.events, some PyErr.zeroDivision⟩
      else
        let totalPages :=
          if cfg.max_results_per_combination ≤ d0.totalElements then
            (cfg.max_results_per_combination + eff - 1) / eff
          else d0.totalPages
        if 1 < totalPages then
          let pages := List.range' 1 (totalPages - 1)
          if 1 < cfg.max_workers ∧ 1 < pages.length then
            let out := parPages cfg srv uf mun eff pages r0.store [] []
            ⟨d0.content ++ List.flatten ((sortByPage out.1).map (fun pd => pd.2.content)),
              out.2.1, r0.events ++ out.2.2, none⟩
          else
            seqPages cfg srv uf mun eff pages r0.store d0.content r0.events
        else ⟨d0.content, r0.store, r0.events, none⟩

/-- `BNMPScraper.download_filter_results`: fetch page 0 with the nominal
`page_size`, then continue with `dfrAfterPage0`. -/
def downloadFilterResults (cfg : Config) (srv : Server) (store : Store)
    (uf : Nat) (mun : Option Nat) : DfrOut :=
  dfrAfterPage0 cfg srv uf mun
    (downloadSinglePage cfg srv store uf mun 0 cfg.page_size)

/-! ### Artifact (PDF) downloader -/

/-- An HTTP response to a PDF download call.  `ctHasPdf` models the check
that the content-type header contains "pdf" (case-insensitively);
`content` is the byte payload. -/
structure PdfResponse where
  status : Nat
  ctHasPdf : Bool
  content : List Nat
deriving DecidableEq, Repr

/-- The PDF endpoint modelled as a pure function of (certidao id, tipo id). -/
def PdfServer := Nat → Nat → PdfResponse

/-- The on-disk PDF store; the key models the file name
`certidao_{id}_tipo_{idTipoPeca}.pdf`. -/
abbrev PdfStore := List ((Nat × Nat) × List Nat)

/-- File-existence check in the PDF store. -/
def pdfExists : PdfStore → Nat × Nat → Bool
  | [], _ => false
  | (k, _) :: rest, key => if k = key then true else pdfExists rest key

/-- The first four bytes of a PDF file, the magic number checked by
`response.content[:4] == b"%PDF"`. -/
def pdfMagic : List Nat := [37, 80, 68, 70]

/-- `BNMPScraper.download_pdf_for_person`: the existing file short-circuits
to `True` with no network call; otherwise the artifact is fetched, and a
200 response is persisted only when it looks like a PDF. -/
def downloadPdfForPerson (psrv : PdfServer) (pstore : PdfStore)
    (cid : Nat) (tipo : Nat) (uf : Option Nat) :
    Bool × PdfStore × List Event :=
  if pdfExists pstore (cid, tipo) then (true, pstore, [])
  else
    let resp := psrv cid tipo
    if resp.status = 200 then
      if resp.ctHasPdf || decide (resp.content.take 4 = pdfMagic) then
        (true, ((cid, tipo), resp.content) :: pstore, [Event.pdfReq uf cid tipo])
      else (false, pstore, [Event.pdfReq uf cid tipo])
    else (false, pstore, [Event.pdfReq uf cid tipo])

/-- Aggregate tallies of `_download_pdfs_for_results`. -/
structure PdfCounts where
  downloaded : Nat
  skipped : Nat
  errors : Nat
deriving DecidableEq, Repr

/-- `download_pdf_task` in the parallel branch of
`_download_pdfs_for_results`: missing or falsy ids are an error, an
existing file is a skip, otherwise the download result decides between
downloaded and error.  Returns the (downloaded, skipped, error) flags. -/
def pdfTask (psrv : PdfServer) (uf : Nat) (st : PdfStore) (r : Record) :
    (Bool × Bool × Bool) × PdfStore × List Event :=
  match r.id, r.idTipoPeca with
  | none, _ => ((false, false, true), st, [])
  | some _, none => ((false, false, true), st, [])
  | some cid, some tipo =>
    if cid = 0 then ((false, false, true), st, [])
    else if pdfExists st (cid, tipo) then ((false, true, false), st, [])
    else
      let out := downloadPdfForPerson psrv st cid tipo (some uf)
      if out.1 then ((true, false, false), out.2.1, out.2.2)
      else ((false, false, true), out.2.1, out.2.2)

/-- The parallel branch of `_download_pdfs_for_results`, serialised in
dispatch order: tally the per-task flags. -/
def pdfPar (psrv : PdfServer) (uf : Nat) :
    List Record → PdfStore → PdfCounts → List Event →
    PdfCounts × PdfStore × List Event
  | [], st, c, evs => (c, st, evs)
  | r :: rs, st, c, evs =>
    let out := pdfTask psrv uf st r
    let c' :=
      if out.1.1 then { c with downloaded := c.downloaded + 1 }
      else if out.1.2.1 then { c with skipped := c.skipped + 1 }
      else if out.1.2.2 then { c with errors := c.errors + 1 }
      else c
    pdfPar psrv uf rs out.2.1 c' (evs ++ out.2.2)

/-- The sequential branch of `_download_pdfs_for_results`: a falsy
certidao id or a missing tipo id is an error; otherwise
`download_pdf_for_person` decides; on `False` the file is re-checked on
disk and counted as skipped when present, as an error otherwise. -/
def pdfSeq (psrv : PdfServer) (uf : Nat) :
    List Record → PdfStore → PdfCounts → List Event →
    PdfCounts × PdfStore × List Event
  | [], st, c, evs => (c, st, evs)
  | r :: rs, st, c, evs =>
    match r.id with
    | none => pdfSeq psrv uf rs st { c with errors := c.errors + 1 } evs
    | some cid =>
      if cid = 0 then pdfSeq psrv uf rs st { c with errors := c.errors + 1 } evs
      else
        match r.idTipoPeca with
        | none => pdfSeq psrv uf rs st { c with errors := c.errors + 1 } evs
        | some tipo =>
          let out := downloadPdfForPerson psrv st cid tipo (some uf)
          if out.1 then
            pdfSeq psrv uf rs out.2.1 { c with downloaded := c.downloaded + 1 }
              (evs ++ out.2.2)
          else if pdfExists out.2.1 (cid, tipo) then
            pdfSeq psrv uf rs out.2.1 { c with skipped := c.skipped + 1 }
              (evs ++ out.2.2)
          else
            pdfSeq psrv uf rs out.2.1 { c with errors := c.errors + 1 }
              (evs ++ out.2.2)

/-- `BNMPScraper._download_pdfs_for_results`: empty input is a no-op;
`max_workers > 1` selects the worker-pool mode, otherwise the sequential
mode runs. -/
def downloadPdfsForResults (cfg : Config) (psrv : PdfServer)
    (results : List Record) (uf : Nat) (st : PdfStore) :
    PdfCounts × PdfStore × List Event :=
  if results.isEmpty then (⟨0, 0, 0⟩, st, [])
  else if 1 < cfg.max_workers then pdfPar psrv uf results st ⟨0, 0, 0⟩ []
  else pdfSeq psrv uf results st ⟨0, 0, 0⟩ []

/-! ### Hierarchical crawl controller -/

/-- The external world seen by `scrape_all`: the state list returned by
`get_estados`, the per-state municipality listing (status code of
`get_municipios_por_uf` plus its JSON body, reduced to the municipality
ids, the only field the engine branches on), the search API and the PDF
endpoint. -/
structure World where
  estados : List Nat
  muniStatus : Nat → Nat
  munis : Nat → List Nat
  srv : Server
  psrv : PdfServer

/-- The mutable stores threaded through the crawl. -/
structure St where
  store : Store
  pstore : PdfStore
deriving DecidableEq, Repr

/-- Outcome of a crawl step: final stores, network requests issued, and
the uncaught Python exception that aborted it, if any. -/
structure StepOut where
  st : St
  events : List Event
  err : Option PyErr
deriving DecidableEq, Repr

/-- The municipality loop of `scrape_all` for one state: while the
start-municipality checkpoint is not yet reached, municipalities are
skipped; from the checkpoint on, each municipality's filter results are
downloaded (an exception here is uncaught and aborts the crawl) and its
PDFs are fetched. -/
def processMunis (cfg : Config) (w : World) (uf : Nat) :
    List Nat → Bool → Option Nat → St → StepOut
  | [], _, _, st => ⟨st, [], none⟩
  | m :: ms, started, startMun, st =>
    if started || decide (some m = startMun) then
      let dfr := downloadFilterResults cfg w.srv st.store uf (some m)
      match dfr.err with
      | some e => ⟨⟨dfr.store, st.pstore⟩, dfr.events, some e⟩
      | none =>
        let pdf := downloadPdfsForResults cfg w.psrv dfr.results uf st.pstore
        let rest := processMunis cfg w uf ms true startMun ⟨dfr.store, pdf.2.1⟩
        ⟨rest.st, dfr.events ++ pdf.2.2 ++ rest.events, rest.err⟩
    else processMunis cfg w uf ms started startMun st

/-- The `test_results` value after the guarded state-level download in
`scrape_all`: the `except` branch turns an exception into zero results. -/
def estadoResults (dfr : DfrOut) : List Record :=
  match dfr.err with
  | some _ => []
  | none => dfr.results

/-- The body of `scrape_all`'s state loop for one state that has been
reached: the state-level filter results are downloaded with every
exception caught (zero results); a small state with `skip_small_ufs` goes
straight to PDF download; otherwise `get_municipios` runs
(`raise_for_status` raising, uncaught, for status ≥ 400) and the
municipality loop starts, skipping up to the start municipality only when
this state is the checkpoint state. -/
def processEstado (cfg : Config) (w : World) (skipSmall : Bool)
    (startUf startMun : Option Nat) (uf : Nat) (st : St) : StepOut :=
  let dfr := downloadFilterResults cfg w.srv st.store uf none
  let results := estadoResults dfr
  if skipSmall && decide (results.length < cfg.max_results_per_combination) then
    let pdf := downloadPdfsForResults cfg w.psrv results uf st.pstore
    ⟨⟨dfr.store, pdf.2.1⟩, dfr.events ++ pdf.2.2, none⟩
  else
    if 400 ≤ w.muniStatus uf then
      ⟨⟨dfr.store, st.pstore⟩, dfr.events ++ [Event.muniList uf],
        some (PyErr.status (w.muniStatus uf))⟩
    else
      let started := startMun.isNone || decide (startUf ≠ some uf)
      let out := processMunis cfg w uf (w.munis uf) started startMun
        ⟨dfr.store, st.pstore⟩
      ⟨out.st, dfr.events ++ [Event.muniList uf] ++ out.events, out.err⟩

/-- The state loop of `scrape_all`: while the start-state checkpoint is
not yet reached, states are skipped entirely; an uncaught exception in a
state's processing aborts the whole crawl. -/
def scrapeStates (cfg : Config) (w : World) (skipSmall : Bool)
    (startUf startMun : Option Nat) : List Nat → Bool → St → StepOut
  | [], _, st => ⟨st, [], none⟩
  | uf :: rest, started, st =>
    if started || decide (some uf = startUf) then
      let out := processEstado cfg w skipSmall startUf startMun uf st
      match out.err with
      | some e => ⟨out.st, out.events, some e⟩
      | none =>
        let r := scrapeStates cfg w skipSmall startUf startMun rest true out.st
        ⟨r.st, out.events ++ r.events, r.err⟩
    else scrapeStates cfg w skipSmall startUf startMun rest started st

/-- `BNMPScraper.scrape_all` (metadata writes, which live in a disjoint
file namespace, are not observable by any claim and are omitted). -/
def scrapeAll (cfg : Config) (w : World) (startUf startMun : Option Nat)
    (skipSmall : Bool) (st : St) : StepOut :=
  scrapeStates cfg w skipSmall startUf startMun w.estados startUf.isNone st

/-! ### Concrete sample worlds used by counterexamples and witnesses -/

/-- A sample search-result record with both required fields present. -/
def sampleRecord : Record := ⟨some 1, some 1⟩

/-- A page holding five sample records. -/
def fivePage : PageData := ⟨List.replicate 5 sampleRecord, 100, 4⟩

/-- A server that always answers 200 with `fivePage`. -/
def srvFive : Server := fun _ => ⟨200, fivePage⟩

/-- A page holding three sample records. -/
def threePage : PageData := ⟨List.replicate 3 sampleRecord, 50, 4⟩

/-- A server that rejects any requested size above 10 with HTTP 400 and
answers 200 with `threePage` otherwise. -/
def srvFloor : Server := fun r => if r.size ≤ 10 then ⟨200, threePage⟩ else ⟨400, ⟨[], 0, 0⟩⟩

/-- A server whose pages are empty while reporting 50000 total elements. -/
def srvEmptyBig : Server := fun _ => ⟨200, ⟨[], 50000, 4⟩⟩

/-- A server that always answers 200 with `threePage`. -/
def srvThree : Server := fun _ => ⟨200, threePage⟩

/-- A PDF endpoint that always answers 200 with a PDF payload. -/
def psrvPdf : PdfServer := fun _ _ => ⟨200, true, pdfMagic⟩

/-- World used by the C8 witness: one state, one municipality, a server
with 100 total elements. -/
def w8 : World := ⟨[1], fun _ => 200, fun _ => [5], srvFive, psrvPdf⟩

/-- World whose municipality listing fails with HTTP 404 for state 1. -/
def w2bad : World :=
  ⟨[1, 2], fun u => if u = 1 then 404 else 200, fun _ => [11, 12], srvFive, psrvPdf⟩

/-- World whose search pages are empty with a huge reported total, so the
state-level download raises the page-cap division error. -/
def wDiv : World := ⟨[1], fun _ => 200, fun _ => [], srvEmptyBig, psrvPdf⟩

/-- World used by the C7 witness: three states, state 2 having
municipalities [11, 12, 13], the others [21, 22]. -/
def w7 : World :=
  ⟨[1, 2, 3], fun _ => 200, fun u => if u = 2 then [11, 12, 13] else [21, 22],
    srvFive, psrvPdf⟩

/-- The state a network event belongs to: the state id of a search
request, the state of a municipality listing, the state tag of an
artifact fetch. -/
def evState : Event → Option Nat
  | .pageReq r => some r.uf
  | .muniList u => some u
  | .pdfReq u _ _ => u

/-! ### Helper lemmas -/

/-- The sequential page loop never lets an exception escape (page errors
break the loop and are reported, not raised). -/
theorem seqPages_err (cfg : Config) (srv : Server) (uf : Nat) (mun : Option Nat)
    (eff : Nat) : ∀ (ps : List Nat) (store : Store) (acc : List Record)
    (evs : List Event), (seqPages cfg srv uf mun eff ps store acc evs).err = none := by
  intro ps
  induction ps with
  | nil => intro store acc evs; rfl
  | cons p ps ih =>
    intro store acc evs
    rw [seqPages]
    split
    · rfl
    · dsimp only
      split
      · rfl
      · split
        · exact ih _ _ _
        · exact ih _ _ _

/-- Every network request issued by one `_download_single_page` call is a
search request for its own scope and page; its size is the size argument,
except for the single downgrade retry (size 10, issued only after a 400
on a size above 10). -/
theorem dsp_events (cfg : Config) (srv : Server) (store : Store) (uf : Nat)
    (mun : Option Nat) (p e : Nat) (ev : Event)
    (hev : ev ∈ (downloadSinglePage cfg srv store uf mun p e).events) :
    ∃ sz, ev = Event.pageReq ⟨uf, mun, p, sz⟩ ∧
      (sz = e ∨ (sz = 10 ∧ (srv ⟨uf, mun, p, e⟩).status = 400 ∧ 10 < e)) := by
  simp only [downloadSinglePage] at hev
  split at hev
  · simp at hev
  · split at hev
    · simp at hev
    · split at hev
      · simp at hev
        exact ⟨e, hev, Or.inl rfl⟩
      · split at hev
        · rename_i hcond
          split at hev <;>
          · simp at hev
            rcases hev with h | h
            · exact ⟨e, h, Or.inl rfl⟩
            · exact ⟨10, h, Or.inr ⟨rfl, hcond.1, hcond.2⟩⟩
        · simp at hev
          exact ⟨e, hev, Or.inl rfl⟩

/-- Every request recorded by the sequential page loop is either carried
in from the accumulator or was issued by the fetch of one of the loop's
pages (at some intermediate store). -/
theorem seqPages_events (cfg : Config) (srv : Server) (uf : Nat)
    (mun : Option Nat) (eff : Nat) : ∀ (ps : List Nat) (store : Store)
    (acc : List Record) (evs : List Event) (ev : Event),
    ev ∈ (seqPages cfg srv uf mun eff ps store acc evs).events →
    ev ∈ evs ∨ ∃ p ∈ ps, ∃ st : Store,
      ev ∈ (downloadSinglePage cfg srv st uf mun p eff).events := by
  intro ps
  induction ps with
  | nil => intro store acc evs ev h; exact Or.inl h
  | cons p ps ih =>
    intro store acc evs ev h
    rw [seqPages] at h
    split at h
    · exact Or.inl h
    · try dsimp only at h
      split at h
      · rcases List.mem_append.mp h with h' | h'
        · exact Or.inl h'
        · exact Or.inr ⟨p, List.mem_cons_self _ _, store, h'⟩
      · split at h <;>
        · rcases ih _ _ _ _ h with h' | ⟨q, hq, st, h''⟩
          · rcases List.mem_append.mp h' with h'' | h''
            · exact Or.inl h''
            · exact Or.inr ⟨p, List.mem_cons_self _ _, store, h''⟩
          · exact Or.inr ⟨q, List.mem_cons_of_mem _ hq, st, h''⟩

/-- Every request recorded by the parallel page loop is either carried in
from the accumulator or was issued by the fetch of one of the loop's
pages (at some intermediate store). -/
theorem parPages_events (cfg : Config) (srv : Server) (uf : Nat)
    (mun : Option Nat) (eff : Nat) : ∀ (ps : List Nat) (store : Store)
    (succ : List (Nat × PageData)) (evs : List Event) (ev : Event),
    ev ∈ (parPages cfg srv uf mun eff ps store succ evs).2.2 →
    ev ∈ evs ∨ ∃ p ∈ ps, ∃ st : Store,
      ev ∈ (downloadSinglePage cfg srv st uf mun p eff).events := by
  intro ps
  induction ps with
  | nil => intro store succ evs ev h; exact Or.inl h
  | cons p ps ih =>
    intro store succ evs ev h
    rw [parPages] at h
    try dsimp only at h
    split at h
    · rcases ih _ _ _ _ h with h' | ⟨q, hq, st, h''⟩
      · rcases List.mem_append.mp h' with h'' | h''
        · exact Or.inl h''
        · exact Or.inr ⟨p, List.mem_cons_self _ _, store, h''⟩
      · exact Or.inr ⟨q, List.mem_cons_of_mem _ hq, st, h''⟩
    · split at h <;>
      · rcases ih _ _ _ _ h with h' | ⟨q, hq, st, h''⟩
        · rcases List.mem_append.mp h' with h'' | h''
          · exact Or.inl h''
          · exact Or.inr ⟨p, List.mem_cons_self _ _, store, h''⟩
        · exact Or.inr ⟨q, List.mem_cons_of_mem _ hq, st, h''⟩

/-- Every request recorded past page 0 by the Pagination Driver body was
issued while fetching a page index in `[1, total page count)` with the
settled effective page size. -/
theorem dfrAfterPage0_events (cfg : Config) (srv : Server) (uf : Nat)
    (mun : Option Nat) (r0 : FetchOut) (d0 : PageData)
    (hd0 : r0.data = some d0) (ev : Event)
    (hev : ev ∈ (dfrAfterPage0 cfg srv uf mun r0).events) :
    ev ∈ r0.events ∨
      ∃ p, 1 ≤ p ∧
        p < (if cfg.max_results_per_combination ≤ d0.totalElements then
          (cfg.max_results_per_combination + d0.content.length - 1) /
            d0.content.length
        else d0.totalPages) ∧
        ∃ st : Store,
          ev ∈ (downloadSinglePage cfg srv st uf mun p d0.content.length).events := by
  simp only [dfrAfterPage0] at hev
  split at hev
  · exact Or.inl hev
  · split at hev
    · exact Or.inl hev
    · rename_i d0' hdat
      have hd' : d0' = d0 := by rw [hdat] at hd0; injection hd0
      rw [hd'] at hev
      by_cases hcond : cfg.max_results_per_combination ≤ d0.totalElements ∧
          d0.content.length = 0
      · rw [if_pos hcond] at hev
        exact Or.inl hev
      · rw [if_neg hcond] at hev
        generalize htp : (if cfg.max_results_per_combination ≤ d0.totalElements then
          (cfg.max_results_per_combination + d0.content.length - 1) /
            d0.content.length
        else d0.totalPages) = tp at hev ⊢
        by_cases h1 : 1 < tp
        · rw [if_pos h1] at hev
          by_cases hpar : 1 < cfg.max_workers ∧ 1 < (List.range' 1 (tp - 1)).length
          · rw [if_pos hpar] at hev
            try dsimp only at hev
            rcases List.mem_append.mp hev with h | h
            · exact Or.inl h
            · rcases parPages_events cfg srv uf mun _ _ _ _ _ _ h with
                h' | ⟨p, hp, st, h''⟩
              · simp at h'
              · have hb := List.mem_range'_1.mp hp
                exact Or.inr ⟨p, hb.1, by omega, st, h''⟩
          · rw [if_neg hpar] at hev
            rcases seqPages_events cfg srv uf mun _ _ _ _ _ _ hev with
              h' | ⟨p, hp, st, h''⟩
            · exact Or.inl h'
            · have hb := List.mem_range'_1.mp hp
              exact Or.inr ⟨p, hb.1, by omega, st, h''⟩
        · rw [if_neg h1] at hev
          exact Or.inl hev

/-- When page 0 returned no data, the driver body adds no further
events. -/
theorem dfrAfterPage0_events_none (cfg : Config) (srv : Server) (uf : Nat)
    (mun : Option Nat) (r0 : FetchOut) (hd : r0.data = none) :
    (dfrAfterPage0 cfg srv uf mun r0).events = r0.events := by
  simp only [dfrAfterPage0]
  split
  · rfl
  · split
    · rfl
    · rename_i d0 hdat
      rw [hd] at hdat
      exact Option.noConfusion hdat

/-- Every event recorded by the Pagination Driver is a search request for
its own scope. -/
theorem dfr_events_shape (cfg : Config) (srv : Server) (store : Store)
    (uf : Nat) (mun : Option Nat) (ev : Event)
    (hev : ev ∈ (downloadFilterResults cfg srv store uf mun).events) :
    ∃ p sz, ev = Event.pageReq ⟨uf, mun, p, sz⟩ := by
  unfold downloadFilterResults at hev
  cases hdat : (downloadSinglePage cfg srv store uf mun 0 cfg.page_size).data with
  | none =>
    rw [dfrAfterPage0_events_none cfg srv uf mun _ hdat] at hev
    rcases dsp_events cfg srv store uf mun 0 cfg.page_size _ hev with ⟨sz, heq, -⟩
    exact ⟨0, sz, heq⟩
  | some d0 =>
    rcases dfrAfterPage0_events cfg srv uf mun _ d0 hdat _ hev with
      h | ⟨p, -, -, st, h⟩
    · rcases dsp_events cfg srv store uf mun 0 cfg.page_size _ h with ⟨sz, heq, -⟩
      exact ⟨0, sz, heq⟩
    · rcases dsp_events cfg srv st uf mun p d0.content.length _ h with ⟨sz, heq, -⟩
      exact ⟨p, sz, heq⟩

/-- The only event the artifact download routine can record is the fetch
of its own artifact. -/
theorem downloadPdfForPerson_events (psrv : PdfServer) (pstore : PdfStore)
    (cid tipo : Nat) (u : Option Nat) (ev : Event)
    (hev : ev ∈ (downloadPdfForPerson psrv pstore cid tipo u).2.2) :
    ev = Event.pdfReq u cid tipo := by
  simp only [downloadPdfForPerson] at hev
  split at hev
  · simp at hev
  · split at hev
    · split at hev <;> simpa using hev
    · simpa using hev

/-- Every event recorded by a worker-pool artifact task is an artifact
fetch tagged with the task's state id. -/
theorem pdfTask_events (psrv : PdfServer) (uf : Nat) (st : PdfStore)
    (r : Record) (ev : Event) (hev : ev ∈ (pdfTask psrv uf st r).2.2) :
    ∃ cid tipo, ev = Event.pdfReq (some uf) cid tipo := by
  obtain ⟨rid, rtipo⟩ := r
  cases rid with
  | none => simp [pdfTask] at hev
  | some cid =>
    cases rtipo with
    | none => simp [pdfTask] at hev
    | some tipo =>
      simp only [pdfTask] at hev
      by_cases hc : cid = 0
      · rw [if_pos hc] at hev
        simp at hev
      · rw [if_neg hc] at hev
        by_cases hx : pdfExists st (cid, tipo) = true
        · rw [if_pos hx] at hev
          simp at hev
        · rw [if_neg hx] at hev
          try dsimp only at hev
          split at hev <;>
            exact ⟨cid, tipo,
              downloadPdfForPerson_events psrv st cid tipo (some uf) _ hev⟩

/-- Every event recorded by the sequential artifact loop is carried in or
is an artifact fetch tagged with the loop's state id. -/
theorem pdfSeq_events (psrv : PdfServer) (uf : Nat) : ∀ (rs : List Record)
    (st : PdfStore) (c : PdfCounts) (evs : List Event) (ev : Event),
    ev ∈ (pdfSeq psrv uf rs st c evs).2.2 →
    ev ∈ evs ∨ ∃ cid tipo, ev = Event.pdfReq (some uf) cid tipo := by
  intro rs
  induction rs with
  | nil => intro st c evs ev h; exact Or.inl h
  | cons r rs ih =>
    intro st c evs ev h
    obtain ⟨rid, rtipo⟩ := r
    cases rid with
    | none =>
      simp only [pdfSeq] at h
      exact ih _ _ _ _ h
    | some cid =>
      cases rtipo with
      | none =>
        simp only [pdfSeq] at h
        by_cases hc : cid = 0
        · rw [if_pos hc] at h
          exact ih _ _ _ _ h
        · rw [if_neg hc] at h
          exact ih _ _ _ _ h
      | some tipo =>
        simp only [pdfSeq] at h
        by_cases hc : cid = 0
        · rw [if_pos hc] at h
          exact ih _ _ _ _ h
        · rw [if_neg hc] at h
          try dsimp only at h
          split at h
          · rcases ih _ _ _ _ h with h' | h'
            · rcases List.mem_append.mp h' with h'' | h''
              · exact Or.inl h''
              · exact Or.inr ⟨cid, tipo,
                  downloadPdfForPerson_events psrv st cid tipo (some uf) _ h''⟩
            · exact Or.inr h'
          · split at h <;>
            · rcases ih _ _ _ _ h with h' | h'
              · rcases List.mem_append.mp h' with h'' | h''
                · exact Or.inl h''
                · exact Or.inr ⟨cid, tipo,
                    downloadPdfForPerson_events psrv st cid tipo (some uf) _ h''⟩
              · exact Or.inr h'

/-- Every event recorded by the worker-pool artifact loop is carried in
or is an artifact fetch tagged with the loop's state id. -/
theorem pdfPar_events (psrv : PdfServer) (uf : Nat) : ∀ (rs : List Record)
    (st : PdfStore) (c : PdfCounts) (evs : List Event) (ev : Event),
    ev ∈ (pdfPar psrv uf rs st c evs).2.2 →
    ev ∈ evs ∨ ∃ cid tipo, ev = Event.pdfReq (some uf) cid tipo := by
  intro rs
  induction rs with
  | nil => intro st c evs ev h; exact Or.inl h
  | cons r rs ih =>
    intro st c evs ev h
    rw [pdfPar] at h
    rcases ih _ _ _ _ h with h' | h'
    · rcases List.mem_append.mp h' with h'' | h''
      · exact Or.inl h''
      · exact pdfTask_events psrv uf st r _ h'' |>.elim
          (fun cid h3 => Or.inr ⟨cid, h3⟩)
    · exact Or.inr h'

/-- Every event recorded by the artifact downloader is an artifact fetch
tagged with the given state id. -/
theorem downloadPdfsForResults_events (cfg : Config) (psrv : PdfServer)
    (results : List Record) (uf : Nat) (st : PdfStore) (ev : Event)
    (hev : ev ∈ (downloadPdfsForResults cfg psrv results uf st).2.2) :
    ∃ cid tipo, ev = Event.pdfReq (some uf) cid tipo := by
  simp only [downloadPdfsForResults] at hev
  split at hev
  · simp at hev
  · split at hev
    · rcases pdfPar_events psrv uf results st ⟨0, 0, 0⟩ [] ev hev with h | h
      · simp at h
      · exact h
    · rcases pdfSeq_events psrv uf results st ⟨0, 0, 0⟩ [] ev hev with h | h
      · simp at h
      · exact h

/-- States before the checkpoint state are skipped without any effect. -/
theorem scrapeStates_skipUntil (cfg : Config) (w : World) (skipSmall : Bool)
    (s : Nat) (startMun : Option Nat) : ∀ (pre rest : List Nat) (st : St),
    (∀ uf ∈ pre, uf ≠ s) →
    scrapeStates cfg w skipSmall (some s) startMun (pre ++ rest) false st =
      scrapeStates cfg w skipSmall (some s) startMun rest false st := by
  intro pre
  induction pre with
  | nil => intro rest st h; rfl
  | cons uf pre ih =>
    intro rest st h
    rw [List.cons_append, scrapeStates]
    rw [if_neg (by simp [h uf (List.mem_cons_self uf pre)])]
    exact ih rest st (fun x hx => h x (List.mem_cons_of_mem _ hx))

/-- Every event of the state loop arises from processing one of its
states (at some intermediate stores). -/
theorem scrapeStates_events (cfg : Config) (w : World) (skipSmall : Bool)
    (startUf startMun : Option Nat) : ∀ (l : List Nat) (started : Bool)
    (st : St) (ev : Event),
    ev ∈ (scrapeStates cfg w skipSmall startUf startMun l started st).events →
    ∃ uf ∈ l, ∃ st' : St,
      ev ∈ (processEstado cfg w skipSmall startUf startMun uf st').events := by
  intro l
  induction l with
  | nil => intro started st ev h; simp [scrapeStates] at h
  | cons uf rest ih =>
    intro started st ev h
    rw [scrapeStates] at h
    split at h
    · try dsimp only at h
      split at h
      · exact ⟨uf, List.mem_cons_self _ _, st, h⟩
      · try dsimp only at h
        rcases List.mem_append.mp h with h' | h'
        · exact ⟨uf, List.mem_cons_self _ _, st, h'⟩
        · rcases ih _ _ _ h' with ⟨uf', hm, st', h''⟩
          exact ⟨uf', List.mem_cons_of_mem _ hm, st', h''⟩
    · rcases ih _ _ _ h with ⟨uf', hm, st', h''⟩
      exact ⟨uf', List.mem_cons_of_mem _ hm, st', h''⟩

/-- Every event of the municipality loop is a search request for one of
its municipalities or an artifact fetch, always within its own state. -/
theorem processMunis_events (cfg : Config) (w : World) (uf : Nat) :
    ∀ (l : List Nat) (started : Bool) (sM : Option Nat) (st : St) (ev : Event),
    ev ∈ (processMunis cfg w uf l started sM st).events →
    ∃ mu ∈ l, (∃ p sz, ev = Event.pageReq ⟨uf, some mu, p, sz⟩) ∨
      (∃ cid tipo, ev = Event.pdfReq (some uf) cid tipo) := by
  intro l
  induction l with
  | nil => intro started sM st ev h; simp [processMunis] at h
  | cons m ms ih =>
    intro started sM st ev h
    rw [processMunis] at h
    split at h
    · try dsimp only at h
      split at h
      · try dsimp only at h
        rcases dfr_events_shape cfg w.srv st.store uf (some m) _ h with ⟨p, sz, h'⟩
        exact ⟨m, List.mem_cons_self _ _, Or.inl ⟨p, sz, h'⟩⟩
      · try dsimp only at h
        rcases List.mem_append.mp h with h' | h'
        · rcases List.mem_append.mp h' with h'' | h''
          · rcases dfr_events_shape cfg w.srv st.store uf (some m) _ h'' with
              ⟨p, sz, h3⟩
            exact ⟨m, List.mem_cons_self _ _, Or.inl ⟨p, sz, h3⟩⟩
          · rcases downloadPdfsForResults_events cfg w.psrv _ uf st.pstore _ h''
              with ⟨cid, tipo, h3⟩
            exact ⟨m, List.mem_cons_self _ _, Or.inr ⟨cid, tipo, h3⟩⟩
        · rcases ih _ _ _ _ h' with ⟨mu, hmu, hc⟩
          exact ⟨mu, List.mem_cons_of_mem _ hmu, hc⟩
    · rcases ih _ _ _ _ h with ⟨mu, hmu, hc⟩
      exact ⟨mu, List.mem_cons_of_mem _ hmu, hc⟩

/-- Every event of one state's processing belongs to that state. -/
theorem processEstado_events_state (cfg : Config) (w : World)
    (skipSmall : Bool) (startUf startMun : Option Nat) (uf : Nat) (st : St)
    (ev : Event)
    (hev : ev ∈ (processEstado cfg w skipSmall startUf startMun uf st).events) :
    evState ev = some uf := by
  simp only [processEstado] at hev
  split at hev
  · try dsimp only at hev
    rcases List.mem_append.mp hev with h | h
    · rcases dfr_events_shape cfg w.srv st.store uf none _ h with ⟨p, sz, h'⟩
      subst h'; rfl
    · rcases downloadPdfsForResults_events cfg w.psrv _ uf st.pstore _ h with
        ⟨cid, tipo, h'⟩
      subst h'; rfl
  · split at hev
    · try dsimp only at hev
      rcases List.mem_append.mp hev with h | h
      · rcases dfr_events_shape cfg w.srv st.store uf none _ h with ⟨p, sz, h'⟩
        subst h'; rfl
      · simp only [List.mem_singleton] at h
        subst h; rfl
    · try dsimp only at hev
      rcases List.mem_append.mp hev with h | h
      · rcases List.mem_append.mp h with h' | h'
        · rcases dfr_events_shape cfg w.srv st.store uf none _ h' with ⟨p, sz, h3⟩
          subst h3; rfl
        · simp only [List.mem_singleton] at h'
          subst h'; rfl
      · rcases processMunis_events cfg w uf _ _ _ _ _ h with ⟨mu, hmu, hc⟩
        rcases hc with ⟨p, sz, h3⟩ | ⟨cid, tipo, h3⟩
        · subst h3; rfl
        · subst h3; rfl

/-- Once the municipality loop has started, the checkpoint municipality
id is never consulted again. -/
theorem processMunis_started (cfg : Config) (w : World) (uf : Nat) :
    ∀ (l : List Nat) (sM sM' : Option Nat) (st : St),
    processMunis cfg w uf l true sM st = processMunis cfg w uf l true sM' st := by
  intro l
  induction l with
  | nil => intro sM sM' st; rfl
  | cons m ms ih =>
    intro sM sM' st
    rw [processMunis, processMunis]
    simp only [Bool.true_or]
    split
    · rw [ih]
    · exact ih sM sM' st

/-- Municipalities before the checkpoint municipality are skipped without
any effect. -/
theorem processMunis_skipUntil (cfg : Config) (w : World) (uf : Nat)
    (m : Nat) : ∀ (mpre rest : List Nat) (st : St),
    (∀ x ∈ mpre, x ≠ m) →
    processMunis cfg w uf (mpre ++ rest) false (some m) st =
      processMunis cfg w uf rest false (some m) st := by
  intro mpre
  induction mpre with
  | nil => intro rest st h; rfl
  | cons x mpre ih =>
    intro rest st h
    rw [List.cons_append, processMunis]
    rw [if_neg (by simp [h x (List.mem_cons_self x mpre)])]
    exact ih rest st (fun y hy => h y (List.mem_cons_of_mem _ hy))

/-- The municipality checkpoint has no effect on a state other than the
checkpoint state: processing it with the checkpoint set equals processing
it with no checkpoint at all. -/
theorem processEstado_other_state (cfg : Config) (w : World)
    (skipSmall : Bool) (startUf startMun : Option Nat) (uf : Nat) (st : St)
    (h : startUf ≠ some uf) :
    processEstado cfg w skipSmall startUf startMun uf st =
      processEstado cfg w skipSmall none none uf st := by
  simp only [processEstado]
  by_cases hc : (skipSmall && decide ((estadoResults
      (downloadFilterResults cfg w.srv st.store uf none)).length <
      cfg.max_results_per_combination)) = true
  · rw [if_pos hc, if_pos hc]
  · rw [if_neg hc, if_neg hc]
    by_cases hms : 400 ≤ w.muniStatus uf
    · rw [if_pos hms, if_pos hms]
    · rw [if_neg hms, if_neg hms]
      have hs : (startMun.isNone || decide (startUf ≠ some uf)) = true := by
        simp [h]
      rw [hs]
      simp only [Option.isNone_none, Bool.true_or]
      rw [processMunis_started cfg w uf (w.munis uf) startMun none]

/-- Within the checkpoint state, no municipality strictly before the
checkpoint municipality in the listing is ever queried. -/
theorem processEstado_checkpoint_munis (cfg : Config) (w : World)
    (skipSmall : Bool) (s m : Nat) (st : St) (mpre mpost : List Nat)
    (hmsplit : w.munis s = mpre ++ m :: mpost) (hmnd : (w.munis s).Nodup)
    (m' : Nat) (hm' : m' ∈ mpre) (p sz : Nat) :
    Event.pageReq ⟨s, some m', p, sz⟩ ∉
      (processEstado cfg w skipSmall (some s) (some m) s st).events := by
  have hdisj : mpre.Disjoint (m :: mpost) := by
    rw [hmsplit] at hmnd
    exact (List.nodup_append.mp hmnd).2.2
  intro hev
  simp only [processEstado] at hev
  split at hev
  · try dsimp only at hev
    rcases List.mem_append.mp hev with h | h
    · rcases dfr_events_shape cfg w.srv st.store s none _ h with ⟨p', sz', h'⟩
      simp at h'
    · rcases downloadPdfsForResults_events cfg w.psrv _ s st.pstore _ h with
        ⟨cid, tipo, h'⟩
      exact Event.noConfusion h'
  · split at hev
    · try dsimp only at hev
      rcases List.mem_append.mp hev with h | h
      · rcases dfr_events_shape cfg w.srv st.store s none _ h with ⟨p', sz', h'⟩
        simp at h'
      · simp at h
    · try dsimp only at hev
      rcases List.mem_append.mp hev with h | h
      · rcases List.mem_append.mp h with h' | h'
        · rcases dfr_events_shape cfg w.srv st.store s none _ h' with ⟨p', sz', h3⟩
          simp at h3
        · simp at h'
      · have hstart : (((some m : Option Nat)).isNone ||
            decide ((some s : Option Nat) ≠ some s)) = false := by simp
        rw [hstart, hmsplit,
          processMunis_skipUntil cfg w s m mpre (m :: mpost) _
            (fun x hx hxm => hdisj hx (hxm ▸ List.mem_cons_self m mpost))] at h
        rcases processMunis_events cfg w s _ _ _ _ _ h with ⟨mu, hmu, hc⟩
        rcases hc with ⟨p', sz', h3⟩ | ⟨cid, tipo, h3⟩
        · simp only [Event.pageReq.injEq, Request.mk.injEq, true_and,
            Option.some.injEq] at h3
          exact hdisj hm' (h3.1 ▸ hmu)
        · exact Event.noConfusion h3

/-! ### Claims -/

/-- C1, counterexample.  A server honoring only 5 of the 30 requested
items on HTTP 200: the page is persisted under the `size_30` key (the
requested size), and no file exists under the `size_5` key (the count of
items actually returned), contradicting the claim that the persisted
key equals the honored page size. -/
theorem c1_counterexample :
    (downloadSinglePage ⟨30, 10000, 1⟩ srvFive [] 1 none 0 30).data = some fivePage ∧
    fivePage.content.length = 5 ∧
    storeFind (downloadSinglePage ⟨30, 10000, 1⟩ srvFive [] 1 none 0 30).store
      ⟨1, none, 0, 5⟩ = none ∧
    storeFind (downloadSinglePage ⟨30, 10000, 1⟩ srvFive [] 1 none 0 30).store
      ⟨1, none, 0, 30⟩ = some fivePage := by
  decide

/-- C1, amended.  On HTTP 200 the Page Fetcher persists the page keyed by
the page size it requested in the call (its size argument), regardless of
how many items the server actually returned, and returns the response
body. -/
theorem c1_persist_requested_size (cfg : Config) (srv : Server) (store : Store)
    (uf : Nat) (mun : Option Nat) (page sz : Nat)
    (h1 : storeFind store ⟨uf, mun, page, sz⟩ = none)
    (h2 : storeFind store ⟨uf, mun, page, cfg.page_size⟩ = none)
    (h200 : (srv ⟨uf, mun, page, sz⟩).status = 200) :
    (downloadSinglePage cfg srv store uf mun page sz).store =
      storeSave store ⟨uf, mun, page, sz⟩ (srv ⟨uf, mun, page, sz⟩).body ∧
    (downloadSinglePage cfg srv store uf mun page sz).data =
      some (srv ⟨uf, mun, page, sz⟩).body := by
  unfold downloadSinglePage
  simp only [h1, h2, h200]
  exact ⟨by simp, by simp⟩

/-- Witness for C1's amended theorem at a concrete input. -/
theorem c1_persist_requested_size_witness :
    (downloadSinglePage ⟨30, 10000, 1⟩ srvFive [] 1 none 0 30).store =
      storeSave [] ⟨1, none, 0, 30⟩ (srvFive ⟨1, none, 0, 30⟩).body ∧
    (downloadSinglePage ⟨30, 10000, 1⟩ srvFive [] 1 none 0 30).data =
      some (srvFive ⟨1, none, 0, 30⟩).body :=
  c1_persist_requested_size ⟨30, 10000, 1⟩ srvFive [] 1 none 0 30 rfl rfl rfl

/-- C3.  If a persisted page already exists under the size key of the
call or under the nominal-size key, the Page Fetcher returns that file's
content, issues no network request and leaves the store unchanged; being
a pure function of an unchanged store, a second invocation returns the
identical result. -/
theorem c3_idempotent_fetch (cfg : Config) (srv : Server) (store : Store)
    (uf : Nat) (mun : Option Nat) (page sz : Nat) (d : PageData)
    (h : storeFind store ⟨uf, mun, page, sz⟩ = some d ∨
      (storeFind store ⟨uf, mun, page, sz⟩ = none ∧
        storeFind store ⟨uf, mun, page, cfg.page_size⟩ = some d)) :
    (downloadSinglePage cfg srv store uf mun page sz).data = some d ∧
    (downloadSinglePage cfg srv store uf mun page sz).events = [] ∧
    (downloadSinglePage cfg srv store uf mun page sz).store = store ∧
    downloadSinglePage cfg srv
        (downloadSinglePage cfg srv store uf mun page sz).store uf mun page sz =
      downloadSinglePage cfg srv store uf mun page sz := by
  rcases h with h1 | ⟨h1, h2⟩
  · unfold downloadSinglePage
    simp only [h1]
    exact ⟨by simp, by simp, by simp, by simp⟩
  · unfold downloadSinglePage
    simp only [h1, h2]
    exact ⟨by simp, by simp, by simp, by simp⟩

/-- Witness for C3 at a concrete input: the store already holds the page. -/
theorem c3_idempotent_fetch_witness :
    (downloadSinglePage ⟨30, 10000, 1⟩ srvFive [(⟨1, none, 0, 30⟩, fivePage)]
      1 none 0 30).data = some fivePage ∧
    (downloadSinglePage ⟨30, 10000, 1⟩ srvFive [(⟨1, none, 0, 30⟩, fivePage)]
      1 none 0 30).events = [] ∧
    (downloadSinglePage ⟨30, 10000, 1⟩ srvFive [(⟨1, none, 0, 30⟩, fivePage)]
      1 none 0 30).store = [(⟨1, none, 0, 30⟩, fivePage)] ∧
    downloadSinglePage ⟨30, 10000, 1⟩ srvFive
        (downloadSinglePage ⟨30, 10000, 1⟩ srvFive [(⟨1, none, 0, 30⟩, fivePage)]
          1 none 0 30).store 1 none 0 30 =
      downloadSinglePage ⟨30, 10000, 1⟩ srvFive [(⟨1, none, 0, 30⟩, fivePage)]
        1 none 0 30 :=
  c3_idempotent_fetch ⟨30, 10000, 1⟩ srvFive [(⟨1, none, 0, 30⟩, fivePage)]
    1 none 0 30 fivePage (Or.inl rfl)

/-- C4.  On a cache miss answered with HTTP 400: with requested size above
the floor of 10 the fetcher retries exactly once with size 10 (two
requests in total); a 200 on the retry persists the page under the
size-10 key and succeeds; any other retry status is a fetch error
carrying that status.  With requested size at most 10 there is no retry
and the fetch error carries status 400. -/
theorem c4_downgrade_retry (cfg : Config) (srv : Server) (store : Store)
    (uf : Nat) (mun : Option Nat) (page sz : Nat)
    (h1 : storeFind store ⟨uf, mun, page, sz⟩ = none)
    (h2 : storeFind store ⟨uf, mun, page, cfg.page_size⟩ = none)
    (h400 : (srv ⟨uf, mun, page, sz⟩).status = 400) :
    (10 < sz →
      (downloadSinglePage cfg srv store uf mun page sz).events =
        [Event.pageReq ⟨uf, mun, page, sz⟩, Event.pageReq ⟨uf, mun, page, 10⟩] ∧
      ((srv ⟨uf, mun, page, 10⟩).status = 200 →
        (downloadSinglePage cfg srv store uf mun page sz).data =
          some (srv ⟨uf, mun, page, 10⟩).body ∧
        (downloadSinglePage cfg srv store uf mun page sz).err = none ∧
        (downloadSinglePage cfg srv store uf mun page sz).store =
          storeSave store ⟨uf, mun, page, 10⟩ (srv ⟨uf, mun, page, 10⟩).body) ∧
      ((srv ⟨uf, mun, page, 10⟩).status ≠ 200 →
        (downloadSinglePage cfg srv store uf mun page sz).data = none ∧
        (downloadSinglePage cfg srv store uf mun page sz).err =
          some (PyErr.status (srv ⟨uf, mun, page, 10⟩).status))) ∧
    (sz ≤ 10 →
      (downloadSinglePage cfg srv store uf mun page sz).events =
        [Event.pageReq ⟨uf, mun, page, sz⟩] ∧
      (downloadSinglePage cfg srv store uf mun page sz).err =
        some (PyErr.status 400) ∧
      (downloadSinglePage cfg srv store uf mun page sz).data = none) := by
  constructor
  · intro hsz
    unfold downloadSinglePage
    simp only [h1, h2]
    rw [h400, if_neg (by decide), if_pos ⟨rfl, hsz⟩]
    refine ⟨?_, ?_, ?_⟩
    · split <;> rfl
    · intro h200
      rw [if_pos h200]
      exact ⟨rfl, rfl, rfl⟩
    · intro hne
      rw [if_neg hne]
      exact ⟨rfl, rfl⟩
  · intro hsz
    unfold downloadSinglePage
    simp only [h1, h2]
    rw [h400, if_neg (by decide),
      if_neg (fun h => absurd h.2 (Nat.not_lt.mpr hsz))]
    exact ⟨rfl, rfl, rfl⟩

/-- Witness for C4 at a concrete input: `srvFloor` rejects size 30 and
accepts the floored retry. -/
theorem c4_downgrade_retry_witness :
    (downloadSinglePage ⟨30, 10000, 1⟩ srvFloor [] 1 none 0 30).events =
      [Event.pageReq ⟨1, none, 0, 30⟩, Event.pageReq ⟨1, none, 0, 10⟩] ∧
    (downloadSinglePage ⟨30, 10000, 1⟩ srvFloor [] 1 none 0 30).data =
      some (srvFloor ⟨1, none, 0, 10⟩).body ∧
    (downloadSinglePage ⟨30, 10000, 1⟩ srvFloor [] 1 none 0 30).err = none ∧
    (downloadSinglePage ⟨30, 10000, 1⟩ srvFloor [] 1 none 0 30).store =
      storeSave [] ⟨1, none, 0, 10⟩ (srvFloor ⟨1, none, 0, 10⟩).body := by
  have h := c4_downgrade_retry ⟨30, 10000, 1⟩ srvFloor [] 1 none 0 30 rfl rfl rfl
  have h30 := h.1 (by decide)
  have h200 := h30.2.1 rfl
  exact ⟨h30.1, h200.1, h200.2.1, h200.2.2⟩

/-- C10.  The Pagination Driver raises exactly when page 0 succeeds with
an empty content list while reporting a total element count at or above
the configured maximum: the page-cap computation then divides by zero.
In every other case no exception escapes the driver. -/
theorem c10_cap_division_by_zero (cfg : Config) (srv : Server) (store : Store)
    (uf : Nat) (mun : Option Nat) :
    ((downloadFilterResults cfg srv store uf mun).err = some PyErr.zeroDivision ↔
      (∃ d0, (downloadSinglePage cfg srv store uf mun 0 cfg.page_size).err = none ∧
        (downloadSinglePage cfg srv store uf mun 0 cfg.page_size).data = some d0 ∧
        d0.content = [] ∧ cfg.max_results_per_combination ≤ d0.totalElements)) ∧
    ((downloadFilterResults cfg srv store uf mun).err = none ∨
      (downloadFilterResults cfg srv store uf mun).err = some PyErr.zeroDivision) := by
  unfold downloadFilterResults
  generalize downloadSinglePage cfg srv store uf mun 0 cfg.page_size = r0
  obtain ⟨p, dat, err, st, evs⟩ := r0
  cases err with
  | some e => simp [dfrAfterPage0]
  | none =>
    cases dat with
    | none => simp [dfrAfterPage0]
    | some d0 =>
      by_cases hcond : cfg.max_results_per_combination ≤ d0.totalElements ∧
          d0.content.length = 0
      · have herr2 : (dfrAfterPage0 cfg srv uf mun
            ⟨p, some d0, none, st, evs⟩).err = some PyErr.zeroDivision := by
          simp only [dfrAfterPage0]
          rw [if_pos hcond]
        refine ⟨?_, Or.inr herr2⟩
        rw [herr2]
        constructor
        · intro _
          exact ⟨d0, rfl, rfl, List.length_eq_zero.mp hcond.2, hcond.1⟩
        · intro _; rfl
      · have herr : (dfrAfterPage0 cfg srv uf mun
            ⟨p, some d0, none, st, evs⟩).err = none := by
          simp only [dfrAfterPage0]
          rw [if_neg hcond]
          repeat' split
          all_goals first
            | rfl
            | exact seqPages_err _ _ _ _ _ _ _ _ _
        refine ⟨?_, Or.inl herr⟩
        rw [herr]
        constructor
        · intro h; exact absurd h (by simp)
        · rintro ⟨d0', h0, hd, hnil, hle⟩
          have hd' : d0 = d0' := by
            simpa using hd
          subst hd'
          exact absurd ⟨hle, List.length_eq_zero.mpr hnil⟩ hcond

/-- Witness for C10 at a concrete input: page 0 empty, 50000 reported
total elements, maximum 10000. -/
theorem c10_cap_division_by_zero_witness :
    (downloadFilterResults ⟨30, 10000, 1⟩ srvEmptyBig [] 1 none).err =
      some PyErr.zeroDivision :=
  (c10_cap_division_by_zero ⟨30, 10000, 1⟩ srvEmptyBig [] 1 none).1.mpr
    ⟨⟨[], 50000, 4⟩, rfl, rfl, rfl, by decide⟩

/-- C5.  Within one Pagination Driver run, every search request for a page
index at least 1 carries the effective page size of page 0 (the number of
items actually contained in page 0's content), except only for the
single-shot downgrade retry, which carries size 10 and occurs only after
the effective-size request was answered 400 (and only when that size
exceeds 10); the nominal configured size is never used past page 0 other
than through that effective size. -/
theorem c5_settled_size_for_later_pages (cfg : Config) (srv : Server)
    (store : Store) (uf : Nat) (mun : Option Nat) (d0 : PageData)
    (hd0 : (downloadSinglePage cfg srv store uf mun 0 cfg.page_size).data = some d0)
    (p sz : Nat)
    (hev : Event.pageReq ⟨uf, mun, p, sz⟩ ∈
      (downloadFilterResults cfg srv store uf mun).events)
    (hp : 1 ≤ p) :
    sz = d0.content.length ∨
      (sz = 10 ∧ (srv ⟨uf, mun, p, d0.content.length⟩).status = 400 ∧
        10 < d0.content.length) := by
  unfold downloadFilterResults at hev
  rcases dfrAfterPage0_events cfg srv uf mun _ d0 hd0 _ hev with
    h | ⟨q, hq1, hq2, st, h''⟩
  · rcases dsp_events cfg srv store uf mun 0 cfg.page_size _ h with ⟨sz', heq, -⟩
    simp only [Event.pageReq.injEq, Request.mk.injEq, true_and] at heq
    omega
  · rcases dsp_events cfg srv st uf mun q d0.content.length _ h'' with
      ⟨sz', heq, hcase⟩
    simp only [Event.pageReq.injEq, Request.mk.injEq, true_and] at heq
    obtain ⟨hpq, hsz⟩ := heq
    subst hpq; subst hsz
    exact hcase

/-- Witness for C5 at a concrete input: page 1 is requested with size 5,
the number of items page 0 actually contained (the nominal size is 30). -/
theorem c5_settled_size_for_later_pages_witness :
    5 = fivePage.content.length ∨
      (5 = 10 ∧ (srvFive ⟨1, none, 1, fivePage.content.length⟩).status = 400 ∧
        10 < fivePage.content.length) :=
  c5_settled_size_for_later_pages ⟨30, 10000, 1⟩ srvFive [] 1 none fivePage
    (by decide) 1 5 (by decide) (by decide)

/-- C6.  When page 0 reports at least max-results-per-scope total
elements (and its content is non-empty, and the maximum is positive),
every page index the Pagination Driver requests over the network is below
the cap `ceil(max / effective page size)` — so at most that many pages
are fetched; with max 10000 and effective size 30 the cap is
`(10000 + 30 - 1) / 30 = 334`. -/
theorem c6_page_cap (cfg : Config) (srv : Server) (store : Store) (uf : Nat)
    (mun : Option Nat) (d0 : PageData)
    (hd0 : (downloadSinglePage cfg srv store uf mun 0 cfg.page_size).data = some d0)
    (htot : cfg.max_results_per_combination ≤ d0.totalElements)
    (heff : d0.content.length ≠ 0) (hmax : 0 < cfg.max_results_per_combination)
    (p sz : Nat)
    (hev : Event.pageReq ⟨uf, mun, p, sz⟩ ∈
      (downloadFilterResults cfg srv store uf mun).events) :
    p < (cfg.max_results_per_combination + d0.content.length - 1) /
      d0.content.length := by
  have hcap : 1 ≤ (cfg.max_results_per_combination + d0.content.length - 1) /
      d0.content.length := by
    rw [Nat.le_div_iff_mul_le (Nat.pos_of_ne_zero heff)]
    omega
  unfold downloadFilterResults at hev
  rcases dfrAfterPage0_events cfg srv uf mun _ d0 hd0 _ hev with
    h | ⟨q, hq1, hq2, st, h''⟩
  · rcases dsp_events cfg srv store uf mun 0 cfg.page_size _ h with ⟨sz', heq, -⟩
    simp only [Event.pageReq.injEq, Request.mk.injEq, true_and] at heq
    omega
  · rw [if_pos htot] at hq2
    rcases dsp_events cfg srv st uf mun q d0.content.length _ h'' with ⟨sz', heq, -⟩
    simp only [Event.pageReq.injEq, Request.mk.injEq, true_and] at heq
    omega

/-- Witness for C6 at a concrete input: max 10, effective size 3, reported
total 50, cap `(10 + 3 - 1) / 3 = 4`; the page-0 request index is below
the cap. -/
theorem c6_page_cap_witness :
    0 < (10 + threePage.content.length - 1) / threePage.content.length :=
  c6_page_cap ⟨30, 10, 1⟩ srvThree [] 1 none threePage (by decide) (by decide)
    (by decide) (by decide) 0 30 (by decide)

/-- C9, counterexample.  One record whose artifact file is already on
disk: the worker-pool mode tallies it as skipped, but the sequential mode
tallies it as downloaded (because `download_pdf_for_person` returns
`True` for an existing file and the sequential loop counts every `True`
as a download); the two modes therefore do not count identically.  No
network request is made in either mode. -/
theorem c9_counterexample :
    (downloadPdfsForResults ⟨30, 10000, 1⟩ psrvPdf [⟨some 1, some 2⟩] 7
        [((1, 2), pdfMagic)]).1 = ⟨1, 0, 0⟩ ∧
    (downloadPdfsForResults ⟨30, 10000, 2⟩ psrvPdf [⟨some 1, some 2⟩] 7
        [((1, 2), pdfMagic)]).1 = ⟨0, 1, 0⟩ ∧
    (downloadPdfsForResults ⟨30, 10000, 1⟩ psrvPdf [⟨some 1, some 2⟩] 7
        [((1, 2), pdfMagic)]).2.2 = [] ∧
    (downloadPdfsForResults ⟨30, 10000, 2⟩ psrvPdf [⟨some 1, some 2⟩] 7
        [((1, 2), pdfMagic)]).2.2 = [] := by
  decide

/-- C9, amended.  For every record whose artifact file already exists on
disk (with a present, non-falsy artifact id and a present artifact-type
id), neither execution mode makes a network call and neither modifies the
store; the worker-pool mode counts the record in the skipped tally, while
the sequential mode counts it in the downloaded tally, because the
download routine reports an existing file as success. -/
theorem c9_existing_artifact (psrv : PdfServer) (pstore : PdfStore)
    (cid tipo uf : Nat) (rs : List Record) (c : PdfCounts) (evs : List Event)
    (hcid : cid ≠ 0)
    (hex : pdfExists pstore (cid, tipo) = true) :
    (∀ u, downloadPdfForPerson psrv pstore cid tipo u = (true, pstore, [])) ∧
    pdfTask psrv uf pstore ⟨some cid, some tipo⟩ =
      ((false, true, false), pstore, []) ∧
    pdfSeq psrv uf (⟨some cid, some tipo⟩ :: rs) pstore c evs =
      pdfSeq psrv uf rs pstore { c with downloaded := c.downloaded + 1 } evs ∧
    pdfPar psrv uf (⟨some cid, some tipo⟩ :: rs) pstore c evs =
      pdfPar psrv uf rs pstore { c with skipped := c.skipped + 1 } evs := by
  have h1 : ∀ u, downloadPdfForPerson psrv pstore cid tipo u = (true, pstore, []) := by
    intro u
    simp [downloadPdfForPerson, hex]
  have h2 : pdfTask psrv uf pstore ⟨some cid, some tipo⟩ =
      ((false, true, false), pstore, []) := by
    simp [pdfTask, hcid, hex]
  refine ⟨h1, h2, ?_, ?_⟩
  · rw [pdfSeq]
    simp [hcid, h1]
  · rw [pdfPar]
    simp [h2]

/-- C8.  With the small-state skip enabled, a state whose state-level
download succeeds with fewer results than max-results-per-scope proceeds
directly to artifact download for those results — its outcome is exactly
the state-level fetch followed by the artifact downloader — and no
`listMunicipalities` call is ever made for it. -/
theorem c8_small_state_skip (cfg : Config) (w : World)
    (startUf startMun : Option Nat) (uf : Nat) (st : St)
    (herr : (downloadFilterResults cfg w.srv st.store uf none).err = none)
    (hsmall : (downloadFilterResults cfg w.srv st.store uf none).results.length <
      cfg.max_results_per_combination) :
    processEstado cfg w true startUf startMun uf st =
      ⟨⟨(downloadFilterResults cfg w.srv st.store uf none).store,
          (downloadPdfsForResults cfg w.psrv
            (downloadFilterResults cfg w.srv st.store uf none).results uf
            st.pstore).2.1⟩,
        (downloadFilterResults cfg w.srv st.store uf none).events ++
          (downloadPdfsForResults cfg w.psrv
            (downloadFilterResults cfg w.srv st.store uf none).results uf
            st.pstore).2.2,
        none⟩ ∧
    ∀ u, Event.muniList u ∉
      (processEstado cfg w true startUf startMun uf st).events := by
  have heq : processEstado cfg w true startUf startMun uf st =
      ⟨⟨(downloadFilterResults cfg w.srv st.store uf none).store,
          (downloadPdfsForResults cfg w.psrv
            (downloadFilterResults cfg w.srv st.store uf none).results uf
            st.pstore).2.1⟩,
        (downloadFilterResults cfg w.srv st.store uf none).events ++
          (downloadPdfsForResults cfg w.psrv
            (downloadFilterResults cfg w.srv st.store uf none).results uf
            st.pstore).2.2,
        none⟩ := by
    simp only [processEstado, estadoResults, herr, Bool.true_and]
    rw [if_pos (decide_eq_true hsmall)]
  refine ⟨heq, ?_⟩
  intro u hmem
  rw [heq] at hmem
  dsimp only at hmem
  rcases List.mem_append.mp hmem with h | h
  · rcases dfr_events_shape cfg w.srv st.store uf none _ h with ⟨p, sz, h'⟩
    exact Event.noConfusion h'
  · rcases downloadPdfsForResults_events cfg w.psrv _ uf st.pstore _ h with
      ⟨cid, tipo, h'⟩
    exact Event.noConfusion h'

/-- Witness for C8 at a concrete input: the state has 20 results, far
below the maximum of 10000, and `listMunicipalities` is never called. -/
theorem c8_small_state_skip_witness :
    (processEstado ⟨30, 10000, 1⟩ w8 true none none 1 ⟨[], []⟩ =
      ⟨⟨(downloadFilterResults ⟨30, 10000, 1⟩ w8.srv [] 1 none).store,
          (downloadPdfsForResults ⟨30, 10000, 1⟩ w8.psrv
            (downloadFilterResults ⟨30, 10000, 1⟩ w8.srv [] 1 none).results 1
            []).2.1⟩,
        (downloadFilterResults ⟨30, 10000, 1⟩ w8.srv [] 1 none).events ++
          (downloadPdfsForResults ⟨30, 10000, 1⟩ w8.psrv
            (downloadFilterResults ⟨30, 10000, 1⟩ w8.srv [] 1 none).results 1
            []).2.2,
        none⟩) ∧
    Event.muniList 1 ∉ (processEstado ⟨30, 10000, 1⟩ w8 true none none 1
      ⟨[], []⟩).events := by
  have h := c8_small_state_skip ⟨30, 10000, 1⟩ w8 none none 1 ⟨[], []⟩
    (by decide) (by decide)
  exact ⟨h.1, h.2 1⟩

/-- Witness for C9's amended theorem at a concrete input. -/
theorem c9_existing_artifact_witness :
    downloadPdfForPerson psrvPdf [((1, 2), pdfMagic)] 1 2 (some 7) =
      (true, [((1, 2), pdfMagic)], []) ∧
    pdfTask psrvPdf 7 [((1, 2), pdfMagic)] ⟨some 1, some 2⟩ =
      ((false, true, false), [((1, 2), pdfMagic)], []) ∧
    pdfSeq psrvPdf 7 [⟨some 1, some 2⟩] [((1, 2), pdfMagic)] ⟨0, 0, 0⟩ [] =
      pdfSeq psrvPdf 7 [] [((1, 2), pdfMagic)] ⟨1, 0, 0⟩ [] ∧
    pdfPar psrvPdf 7 [⟨some 1, some 2⟩] [((1, 2), pdfMagic)] ⟨0, 0, 0⟩ [] =
      pdfPar psrvPdf 7 [] [((1, 2), pdfMagic)] ⟨0, 1, 0⟩ [] := by
  have h := c9_existing_artifact psrvPdf [((1, 2), pdfMagic)] 1 2 7 [] ⟨0, 0, 0⟩ []
    (by decide) (by decide)
  exact ⟨h.1 (some 7), h.2.1, h.2.2.1, h.2.2.2⟩

/-- C2, counterexample.  In a crawl over states [1, 2] where listing the
municipalities of state 1 answers HTTP 404 (and the small-state skip is
off so the listing is reached), the exception escapes `scrape_all` — the
run aborts with status 404 and no request for state 2 is ever made —
contradicting the claim that the failure is caught and the crawl
continues to the next state. -/
theorem c2_counterexample :
    (scrapeAll ⟨30, 10000, 1⟩ w2bad none none false ⟨[], []⟩).err =
      some (PyErr.status 404) ∧
    (scrapeAll ⟨30, 10000, 1⟩ w2bad none none false ⟨[], []⟩).events =
      [Event.pageReq ⟨1, none, 0, 30⟩, Event.pageReq ⟨1, none, 1, 5⟩,
        Event.pageReq ⟨1, none, 2, 5⟩, Event.pageReq ⟨1, none, 3, 5⟩,
        Event.muniList 1] ∧
    (∀ ev ∈ (scrapeAll ⟨30, 10000, 1⟩ w2bad none none false ⟨[], []⟩).events,
      evState ev ≠ some 2) := by
  decide

/-- C2, amended.  An exception inside the state-level filter-results
download is caught and treated as zero results, and (with the skip
enabled and a positive maximum) the state completes without error so the
crawl continues; by contrast a failing municipality listing
(status ≥ 400) raises out of the state's processing, and a state whose
processing raises aborts the crawl — the remaining states are never
touched. -/
theorem c2_state_failure_handling :
    (∀ (cfg : Config) (w : World) (startUf startMun : Option Nat) (uf : Nat)
      (st : St), 0 < cfg.max_results_per_combination →
      (downloadFilterResults cfg w.srv st.store uf none).err ≠ none →
      (processEstado cfg w true startUf startMun uf st).err = none) ∧
    (∀ (cfg : Config) (w : World) (startUf startMun : Option Nat) (uf : Nat)
      (st : St), 400 ≤ w.muniStatus uf →
      (processEstado cfg w false startUf startMun uf st).err =
        some (PyErr.status (w.muniStatus uf))) ∧
    (∀ (cfg : Config) (w : World) (skipSmall : Bool)
      (startUf startMun : Option Nat) (uf : Nat) (rest : List Nat) (st : St)
      (e : PyErr),
      (processEstado cfg w skipSmall startUf startMun uf st).err = some e →
      scrapeStates cfg w skipSmall startUf startMun (uf :: rest) true st =
        ⟨(processEstado cfg w skipSmall startUf startMun uf st).st,
          (processEstado cfg w skipSmall startUf startMun uf st).events,
          some e⟩) := by
  refine ⟨?_, ?_, ?_⟩
  · intro cfg w startUf startMun uf st hmax herr
    obtain ⟨e, he⟩ := Option.ne_none_iff_exists'.mp herr
    simp only [processEstado, estadoResults, he, Bool.true_and]
    rw [if_pos (decide_eq_true (by simpa using hmax))]
  · intro cfg w startUf startMun uf st hstat
    simp only [processEstado, Bool.false_and]
    rw [if_neg (by simp), if_pos hstat]
  · intro cfg w skipSmall startUf startMun uf rest st e he
    rw [scrapeStates]
    rw [if_pos (by simp)]
    simp only [he]

/-- Witness for C2's amended theorem at concrete inputs: a zero-division
inside the state-level download is absorbed; state 1's municipality
listing answering 404 raises, and the crawl over [1, 2] stops there. -/
theorem c2_state_failure_handling_witness :
    (processEstado ⟨30, 10000, 1⟩ wDiv true none none 1 ⟨[], []⟩).err = none ∧
    (processEstado ⟨30, 10000, 1⟩ w2bad false none none 1 ⟨[], []⟩).err =
      some (PyErr.status (w2bad.muniStatus 1)) ∧
    scrapeStates ⟨30, 10000, 1⟩ w2bad false none none [1, 2] true ⟨[], []⟩ =
      ⟨(processEstado ⟨30, 10000, 1⟩ w2bad false none none 1 ⟨[], []⟩).st,
        (processEstado ⟨30, 10000, 1⟩ w2bad false none none 1 ⟨[], []⟩).events,
        some (PyErr.status 404)⟩ := by
  refine ⟨?_, ?_, ?_⟩
  · exact c2_state_failure_handling.1 ⟨30, 10000, 1⟩ wDiv none none 1 ⟨[], []⟩
      (by decide) (by decide)
  · exact c2_state_failure_handling.2.1 ⟨30, 10000, 1⟩ w2bad none none 1 ⟨[], []⟩
      (by decide)
  · exact c2_state_failure_handling.2.2 ⟨30, 10000, 1⟩ w2bad false none none 1 [2]
      ⟨[], []⟩ (PyErr.status 404) (by decide)

/-- C7.  For a checkpoint (start state `s`, start municipality `m`), with
the state list splitting as `pre ++ s :: post` and `s`'s municipality
list as `mpre ++ m :: mpost` (both duplicate-free): the run equals the
run over `s :: post` alone (the states before `s` are skipped with no
effect); no event of the run belongs to a state before `s`; no
municipality of `s` preceding `m` in its listing is ever queried; and
every state other than `s` is processed exactly as if no checkpoint were
set at all, so municipality resumption does not carry over to later
states. -/
theorem c7_checkpoint_resumption (cfg : Config) (w : World) (skipSmall : Bool)
    (s m : Nat) (st0 : St) (pre post mpre mpost : List Nat)
    (hsplit : w.estados = pre ++ s :: post)
    (hnd : w.estados.Nodup)
    (hmsplit : w.munis s = mpre ++ m :: mpost)
    (hmnd : (w.munis s).Nodup) :
    scrapeAll cfg w (some s) (some m) skipSmall st0 =
      scrapeStates cfg w skipSmall (some s) (some m) (s :: post) false st0 ∧
    (∀ ev ∈ (scrapeAll cfg w (some s) (some m) skipSmall st0).events,
      ∀ uf ∈ pre, evState ev ≠ some uf) ∧
    (∀ ev ∈ (scrapeAll cfg w (some s) (some m) skipSmall st0).events,
      ∀ m' ∈ mpre, ∀ p sz, ev ≠ Event.pageReq ⟨s, some m', p, sz⟩) ∧
    (∀ uf, uf ≠ s → ∀ st : St,
      processEstado cfg w skipSmall (some s) (some m) uf st =
        processEstado cfg w skipSmall none none uf st) := by
  have hdisj : pre.Disjoint (s :: post) := by
    rw [hsplit] at hnd
    exact (List.nodup_append.mp hnd).2.2
  have h0 : scrapeAll cfg w (some s) (some m) skipSmall st0 =
      scrapeStates cfg w skipSmall (some s) (some m) (s :: post) false st0 := by
    unfold scrapeAll
    rw [hsplit]
    exact scrapeStates_skipUntil cfg w skipSmall s (some m) pre (s :: post) st0
      (fun uf hu hus => hdisj hu (hus ▸ List.mem_cons_self s post))
  refine ⟨h0, ?_, ?_, ?_⟩
  · intro ev hev uf hu hcontra
    rw [h0] at hev
    rcases scrapeStates_events cfg w skipSmall (some s) (some m) _ _ _ _ hev with
      ⟨uf', hm', st', h''⟩
    have hst := processEstado_events_state cfg w skipSmall (some s) (some m)
      uf' st' _ h''
    rw [hst] at hcontra
    have huf : uf' = uf := Option.some.inj hcontra
    exact hdisj hu (huf ▸ hm')
  · intro ev hev m' hm' p sz heq
    subst heq
    rw [h0] at hev
    rcases scrapeStates_events cfg w skipSmall (some s) (some m) _ _ _ _ hev with
      ⟨uf', hm2, st', h''⟩
    have hst := processEstado_events_state cfg w skipSmall (some s) (some m)
      uf' st' _ h''
    have hufs : uf' = s := by
      simp only [evState, Option.some.injEq] at hst
      omega
    rw [hufs] at h''
    exact processEstado_checkpoint_munis cfg w skipSmall s m st' mpre mpost
      hmsplit hmnd m' hm' p sz h''
  · intro uf hus st
    exact processEstado_other_state cfg w skipSmall (some s) (some m) uf st
      (fun h => hus (Option.some.inj h).symm)

/-- Witness for C7 at a concrete input: checkpoint (state 2, municipality
12) over states [1, 2, 3] with state 2's municipalities [11, 12, 13]. -/
theorem c7_checkpoint_resumption_witness :
    (scrapeAll ⟨30, 10000, 1⟩ w7 (some 2) (some 12) false ⟨[], []⟩ =
      scrapeStates ⟨30, 10000, 1⟩ w7 false (some 2) (some 12) [2, 3] false
        ⟨[], []⟩) ∧
    evState (Event.pageReq ⟨2, none, 0, 30⟩) ≠ some 1 ∧
    Event.pageReq ⟨2, none, 0, 30⟩ ≠ Event.pageReq ⟨2, some 11, 0, 30⟩ ∧
    processEstado ⟨30, 10000, 1⟩ w7 false (some 2) (some 12) 3 ⟨[], []⟩ =
      processEstado ⟨30, 10000, 1⟩ w7 false none none 3 ⟨[], []⟩ := by
  have h := c7_checkpoint_resumption ⟨30, 10000, 1⟩ w7 false 2 12 ⟨[], []⟩
    [1] [3] [11] [13] rfl (by decide) (by decide) (by decide)
  exact ⟨h.1, h.2.1 (Event.pageReq ⟨2, none, 0, 30⟩) (by decide) 1 (by decide),
    h.2.2.1 (Event.pageReq ⟨2, none, 0, 30⟩) (by decide) 11 (by decide) 0 30,
    h.2.2.2 3 (by decide) ⟨[], []⟩⟩

end Bnmpy
